import Mathlib

/-!
Verification of the coordinate transform and re-anchoring pipeline of
`src/meshTranslate.py` (function `main`, lines 97–184).

The transform core is embedded shallowly:
  * a vertex is a triple of coordinates drawn from an arbitrary additive
    commutative group `R` (exact arithmetic stands in for the Python floats;
    every claim here is about exact value flow, not rounding; concrete
    witnesses use `R = ℤ`);
  * the scene is the mapping `scene.geometry` in its iteration order,
    embedded as an association list of part name and vertex list;
  * the CRS transformer is an abstract function `R → R → R × R`
    (`pyproj.Transformer.transform` is external); its construction result
    is an `Option`, `none` standing for an unrecognized CRS pair;
  * Python exceptions become an `Except` error result.
-/

set_option autoImplicit false
set_option linter.unusedSectionVars false

namespace MeshTranslate

/-- A mesh vertex `(x, y, z)`, the triple iterated by `for x, y, z in
mesh.vertices`. -/
structure Vertex (R : Type) where
  x : R
  y : R
  z : R
  deriving DecidableEq, Repr

/-- The scene geometry: `scene.geometry.items()` in iteration order. -/
abbrev Scene (R : Type) := List (String × List (Vertex R))

/-- An abstract CRS transformer, the `transformer.transform` method. -/
abbrev Tr (R : Type) := R → R → R × R

/-- One image record of the `images` config list: `img.get("filename")` and
`img.get("point")`, each `none` when the key is absent. -/
structure ImagePoint (R : Type) where
  filename : Option String
  point : Option (List R)
  deriving DecidableEq, Repr

/-- The JSON config: `config.get("offset", [0,0,0])` and
`config.get("images", [])`, each field `none` when absent. -/
structure Config (R : Type) where
  offset : Option (List R)
  images : Option (List (ImagePoint R))
  deriving DecidableEq, Repr

/-- The metadata record written at lines 178–181:
`{"offset": [first_vertex[0], first_vertex[1], 0], "images": transformed_images}`. -/
structure Metadata (R : Type) where
  offset : List R
  images : List (ImagePoint R)
  deriving DecidableEq, Repr

/-- What the run produces: the mutated scene and the optional metadata record
(`none` when no `mesh_metadata.json` is written). -/
structure RunResult (R : Type) where
  scene : Scene R
  metadata : Option (Metadata R)
  deriving DecidableEq, Repr

/-- The exceptions the embedded core of `main` can raise. -/
inductive RunError where
  /-- `ValueError` from line 101: offset not exactly 3 components. -/
  | invalidOffset
  /-- `pyproj` error from `Transformer.from_crs` at line 108. -/
  | invalidCRS
  /-- `IndexError` from `new_vertices[0]` at line 126 on an empty part. -/
  | indexError
  /-- `TypeError` from `first_vertex[0]` at line 132 when `first_vertex` is
  `None`. -/
  | noneSubscript
  deriving DecidableEq, Repr

instance {R : Type} [DecidableEq R] : DecidableEq (Except RunError (RunResult R)) := fun a b =>
  match a, b with
  | .ok x, .ok y => if h : x = y then .isTrue (by rw [h]) else .isFalse (by simp [h])
  | .error e, .error f => if h : e = f then .isTrue (by rw [h]) else .isFalse (by simp [h])
  | .ok _, .error _ => .isFalse (by simp)
  | .error _, .ok _ => .isFalse (by simp)

variable {R : Type} [AddCommGroup R]

/-- The per-vertex body of the first loop (lines 116–123):
`x_global = x + offset_x`, `y_global = y + offset_y`, `z_global = z + offset_z`,
`new_x, new_y = transformer.transform(x_global, y_global)`, giving
`[new_x, new_y, z_global]`. -/
def transformVertex (tr : Tr R) (dx dy dz : R) (v : Vertex R) : Vertex R :=
  let xg := v.x + dx
  let yg := v.y + dy
  let zg := v.z + dz
  let p := tr xg yg
  ⟨p.1, p.2, zg⟩

/-- The first pass (lines 114–126): for each part, map its vertices through
`transformVertex`, then execute `first_vertex = new_vertices[0]` — for every
part, unguarded, so the accumulator is overwritten on each iteration and
raises `IndexError` (embedded as `none`) when a part is empty. -/
def vertexPass (tr : Tr R) (dx dy dz : R) :
    Scene R → Option (Vertex R) → Option (Scene R × Option (Vertex R))
  | [], fv => some ([], fv)
  | (name, vs) :: rest, _ =>
    let newVertices := vs.map (transformVertex tr dx dy dz)
    match newVertices with
    | [] => none
    | v0 :: vt =>
      match vertexPass tr dx dy dz rest (some v0) with
      | none => none
      | some (restScene, fvFinal) => some ((name, v0 :: vt) :: restScene, fvFinal)

/-- The per-vertex body of the second loop (lines 130–135):
`[x - first_vertex[0], y - first_vertex[1], z]`. -/
def recenterVertex (a : Vertex R) (v : Vertex R) : Vertex R :=
  ⟨v.x - a.x, v.y - a.y, v.z⟩

/-- The second pass (lines 128–137), which runs unconditionally: subtract the
anchor from each vertex of each part. When `first_vertex` is still `None`,
the first subscript `first_vertex[0]` raises `TypeError` (embedded as `none`),
which can only happen if some part has a vertex to process. -/
def recenterPass (fv : Option (Vertex R)) : Scene R → Option (Scene R)
  | [] => some []
  | (name, vs) :: rest =>
    match fv, vs with
    | some a, _ =>
      (recenterPass fv rest).map (fun r => (name, vs.map (recenterVertex a)) :: r)
    | none, [] =>
      (recenterPass fv rest).map (fun r => (name, ([] : List (Vertex R))) :: r)
    | none, _ :: _ => none

/-- The image loop body (lines 141–159): if `point` is truthy and has exactly
3 components, emit `{filename, point: [new_px, new_py, pz]}` where
`new_px, new_py = transformer.transform(px, py)` (the intermediates
`px_global, py_global, pz_global` are bound to the raw components, no offset
added); otherwise keep the record unchanged. -/
def transformImage (tr : Tr R) (img : ImagePoint R) : ImagePoint R :=
  match img.point with
  | some [px, py, pz] =>
    let p := tr px py
    { filename := img.filename, point := some [p.1, p.2, pz] }
  | _ => img

/-- The embedded core of `main` (lines 97–184), in the source's statement
order: read `offset` with default `[0,0,0]`, validate its length (line 100),
construct the transformer (line 108, `none` = unrecognized CRS pair), run the
vertex pass (114–126), the recentering pass (128–137), the image loop
(141–159), and write metadata only `if first_vertex:` (177–183). -/
def run (trRes : Option (Tr R)) (cfg : Config R) (scene : Scene R) :
    Except RunError (RunResult R) :=
  match cfg.offset.getD [0, 0, 0] with
  | [dx, dy, dz] =>
    match trRes with
    | none => .error .invalidCRS
    | some tr =>
      match vertexPass tr dx dy dz scene none with
      | none => .error .indexError
      | some (scene1, fv) =>
        match recenterPass fv scene1 with
        | none => .error .noneSubscript
        | some scene2 =>
          let transformedImages := (cfg.images.getD []).map (transformImage tr)
          .ok ⟨scene2, fv.map (fun a => ⟨[a.x, a.y, 0], transformedImages⟩)⟩
  | _ => .error .invalidOffset

/-- The anchor as the spec words it (§4.3): the first transformed vertex of
the first non-empty mesh part in iteration order, `none` when every part is
empty. Written from the spec, to be compared with what `vertexPass` records. -/
def specAnchor (tr : Tr R) (dx dy dz : R) : Scene R → Option (Vertex R)
  | [] => none
  | (_, []) :: rest => specAnchor tr dx dy dz rest
  | (_, v :: _) :: _ => some (transformVertex tr dx dy dz v)

/-- The first vertex of the last part of the scene, if any: the vertex whose
transform the code actually leaves in `first_vertex`. -/
def lastPartFirstVertex : Scene R → Option (Vertex R)
  | [] => none
  | [p] => p.2.head?
  | _ :: rest => lastPartFirstVertex rest

/-! ### Characterization lemmas for the passes -/

theorem lastPartFirstVertex_cons_cons (p q : String × List (Vertex R))
    (rest : Scene R) :
    lastPartFirstVertex (p :: q :: rest) = lastPartFirstVertex (q :: rest) := rfl

theorem lastPartFirstVertex_isSome (scene : Scene R) (hne : scene ≠ [])
    (hvs : ∀ p ∈ scene, p.2 ≠ []) : ∃ w, lastPartFirstVertex scene = some w := by
  induction scene with
  | nil => exact absurd rfl hne
  | cons p rest ih =>
    cases rest with
    | nil =>
      have hp := hvs p (List.mem_singleton_self p)
      cases hvp : p.2 with
      | nil => exact absurd hvp hp
      | cons v vt => exact ⟨v, by simp [lastPartFirstVertex, hvp]⟩
    | cons q rs =>
      rw [lastPartFirstVertex_cons_cons]
      exact ih (List.cons_ne_nil q rs) (fun r hr => hvs r (List.mem_cons_of_mem p hr))

theorem lastPartFirstVertex_map (f : Vertex R → Vertex R) :
    ∀ scene : Scene R,
      lastPartFirstVertex (scene.map (fun p => (p.1, p.2.map f)))
        = (lastPartFirstVertex scene).map f
  | [] => rfl
  | [p] => by simp [lastPartFirstVertex]
  | p :: q :: rest => by
    simpa [lastPartFirstVertex] using lastPartFirstVertex_map f (q :: rest)

theorem vertexPass_eq_none_iff (tr : Tr R) (dx dy dz : R) :
    ∀ (scene : Scene R) (a0 : Option (Vertex R)),
      vertexPass tr dx dy dz scene a0 = none ↔ ∃ p ∈ scene, p.2 = []
  | [], _ => by simp [vertexPass]
  | (name, []) :: rest, a0 => by
    refine iff_of_true ?_ ⟨(name, []), by simp, rfl⟩
    simp [vertexPass]
  | (name, v :: vt) :: rest, a0 => by
    simp only [vertexPass, List.map_cons]
    cases h : vertexPass tr dx dy dz rest (some (transformVertex tr dx dy dz v)) with
    | none =>
      obtain ⟨p, hp, hp2⟩ :=
        (vertexPass_eq_none_iff tr dx dy dz rest
          (some (transformVertex tr dx dy dz v))).1 h
      exact iff_of_true rfl ⟨p, List.mem_cons_of_mem _ hp, hp2⟩
    | some out =>
      refine iff_of_false (by simp) ?_
      rintro ⟨p, hp, hp2⟩
      rcases List.mem_cons.1 hp with hpe | hpr
      · subst hpe; exact List.cons_ne_nil v vt hp2
      · have hn : vertexPass tr dx dy dz rest
            (some (transformVertex tr dx dy dz v)) = none :=
          (vertexPass_eq_none_iff tr dx dy dz rest _).2 ⟨p, hpr, hp2⟩
        rw [h] at hn
        exact Option.noConfusion hn

theorem vertexPass_eq_some (tr : Tr R) (dx dy dz : R) :
    ∀ (scene : Scene R) (a0 : Option (Vertex R)) (out : Scene R × Option (Vertex R)),
      vertexPass tr dx dy dz scene a0 = some out →
      out.1 = scene.map (fun p => (p.1, p.2.map (transformVertex tr dx dy dz))) ∧
      out.2 = ((lastPartFirstVertex scene).map (transformVertex tr dx dy dz)).or a0
  | [], a0, out => by
    intro h
    simp only [vertexPass, Option.some_inj] at h
    simp [← h, lastPartFirstVertex]
  | (name, []) :: rest, a0, out => by
    intro h
    simp [vertexPass] at h
  | (name, v :: vt) :: rest, a0, out => by
    intro h
    simp only [vertexPass, List.map_cons] at h
    cases hrec : vertexPass tr dx dy dz rest (some (transformVertex tr dx dy dz v)) with
    | none => rw [hrec] at h; exact absurd h (by simp)
    | some outRest =>
      rw [hrec] at h
      simp only [Option.some_inj] at h
      obtain ⟨h1, h2⟩ := vertexPass_eq_some tr dx dy dz rest
        (some (transformVertex tr dx dy dz v)) outRest hrec
      cases rest with
      | nil =>
        simp only [vertexPass, Option.some_inj] at hrec
        subst h
        simp [← hrec, lastPartFirstVertex]
      | cons q rs =>
        have hnn : ∀ p ∈ q :: rs, p.2 ≠ [] := by
          intro p hp hcon
          have : vertexPass tr dx dy dz (q :: rs)
              (some (transformVertex tr dx dy dz v)) = none :=
            (vertexPass_eq_none_iff tr dx dy dz (q :: rs) _).2 ⟨p, hp, hcon⟩
          rw [this] at hrec
          exact absurd hrec (by simp)
        obtain ⟨w, hw⟩ := lastPartFirstVertex_isSome (q :: rs) (by simp) hnn
        rw [hw] at h2
        subst h
        refine ⟨by simp [h1], ?_⟩
        simp only [lastPartFirstVertex_cons_cons, hw]
        simp [h2]

theorem recenterPass_some (a : Vertex R) :
    ∀ scene : Scene R,
      recenterPass (some a) scene
        = some (scene.map (fun p => (p.1, p.2.map (recenterVertex a))))
  | [] => rfl
  | (name, vs) :: rest => by
    simp [recenterPass, recenterPass_some a rest]

theorem run_empty (tr : Tr R) (cfg : Config R) (dx dy dz : R)
    (hoff : cfg.offset.getD [0, 0, 0] = [dx, dy, dz]) :
    run (some tr) cfg [] = .ok ⟨[], none⟩ := by
  unfold run
  rw [hoff]
  simp [vertexPass, recenterPass]

theorem run_ok_inversion (tr : Tr R) (cfg : Config R) (scene : Scene R)
    (dx dy dz : R) (hoff : cfg.offset.getD [0, 0, 0] = [dx, dy, dz])
    (res : RunResult R) (hrun : run (some tr) cfg scene = .ok res) :
    (∀ p ∈ scene, p.2 ≠ []) ∧
    ((scene = [] ∧ res = ⟨[], none⟩) ∨
      (∃ w, lastPartFirstVertex scene = some w ∧
        res = ⟨scene.map (fun p => (p.1, p.2.map (fun v =>
                recenterVertex (transformVertex tr dx dy dz w)
                  (transformVertex tr dx dy dz v)))),
              some ⟨[(transformVertex tr dx dy dz w).x,
                     (transformVertex tr dx dy dz w).y, 0],
                    (cfg.images.getD []).map (transformImage tr)⟩⟩)) := by
  simp only [run, hoff] at hrun
  cases hvp : vertexPass tr dx dy dz scene none with
  | none => rw [hvp] at hrun; exact absurd hrun (by simp)
  | some out =>
    rw [hvp] at hrun
    obtain ⟨scene1, fv⟩ := out
    obtain ⟨h1, h2⟩ := vertexPass_eq_some tr dx dy dz scene none (scene1, fv) hvp
    simp only at h1 h2
    have hne : ∀ p ∈ scene, p.2 ≠ [] := by
      intro p hp hcon
      have hn : vertexPass tr dx dy dz scene none = none :=
        (vertexPass_eq_none_iff tr dx dy dz scene none).2 ⟨p, hp, hcon⟩
      rw [hvp] at hn
      exact Option.noConfusion hn
    refine ⟨hne, ?_⟩
    cases scene with
    | nil =>
      subst h1
      have hfv : fv = none := by simpa [lastPartFirstVertex] using h2
      subst hfv
      left
      refine ⟨rfl, ?_⟩
      simp only [recenterPass] at hrun
      simpa using hrun.symm
    | cons p ps =>
      right
      obtain ⟨w, hw⟩ := lastPartFirstVertex_isSome (p :: ps) (by simp) hne
      have hfv : fv = some (transformVertex tr dx dy dz w) := by
        rw [hw] at h2
        simpa using h2
      subst hfv h1
      refine ⟨w, hw, ?_⟩
      simp only [recenterPass_some, Except.ok.injEq] at hrun
      rw [← hrun]
      simp [List.map_map, Function.comp_def]

theorem run_ok_offset (trRes : Option (Tr R)) (cfg : Config R) (scene : Scene R)
    (res : RunResult R) (hrun : run trRes cfg scene = .ok res) :
    ∃ a b c, cfg.offset.getD [0, 0, 0] = [a, b, c] := by
  rcases hl : cfg.offset.getD [0, 0, 0] with _ | ⟨a, _ | ⟨b, _ | ⟨c, _ | ⟨d, t⟩⟩⟩⟩
  · simp only [run, hl] at hrun
    exact Except.noConfusion hrun
  · simp only [run, hl] at hrun
    exact Except.noConfusion hrun
  · simp only [run, hl] at hrun
    exact Except.noConfusion hrun
  · exact ⟨a, b, c, rfl⟩
  · simp only [run, hl] at hrun
    exact Except.noConfusion hrun

theorem run_ne_invalidOffset (trRes : Option (Tr R)) (cfg : Config R)
    (scene : Scene R) (a b c : R) (hl : cfg.offset.getD [0, 0, 0] = [a, b, c]) :
    run trRes cfg scene ≠ .error .invalidOffset := by
  unfold run
  rw [hl]
  cases trRes with
  | none => simp
  | some tr =>
    cases hvp : vertexPass tr a b c scene none with
    | none => simp only [hvp]; simp
    | some out =>
      obtain ⟨scene1, fv⟩ := out
      cases hrp : recenterPass fv scene1 with
      | none => simp only [hvp, hrp]; simp
      | some scene2 => simp only [hvp, hrp]; simp

theorem run_metadata_images (tr : Tr R) (cfg : Config R) (scene : Scene R)
    (res : RunResult R) (m : Metadata R)
    (hrun : run (some tr) cfg scene = .ok res) (hm : res.metadata = some m) :
    m.images = (cfg.images.getD []).map (transformImage tr) := by
  obtain ⟨a, b, c, hl⟩ := run_ok_offset (some tr) cfg scene res hrun
  obtain ⟨hne, hcase⟩ := run_ok_inversion tr cfg scene a b c hl res hrun
  rcases hcase with ⟨hsc, hres⟩ | ⟨w, hw, hres⟩
  · rw [hres] at hm
    exact absurd hm (by simp)
  · rw [hres] at hm
    simp only [Option.some_inj] at hm
    rw [← hm]

theorem transformImage_malformed (tr : Tr R) (img : ImagePoint R)
    (h : ∀ l, img.point = some l → l.length ≠ 3) :
    transformImage tr img = img := by
  obtain ⟨f, p⟩ := img
  match p with
  | none => rfl
  | some [] => rfl
  | some [a] => rfl
  | some [a, b] => rfl
  | some [a, b, c] => exact absurd rfl (h [a, b, c] rfl)
  | some (a :: b :: c :: d :: t) => rfl

/-! ### Claims -/

/-- **C1, counterexample.** In the two-part scene `{"a": [(1,1,1)], "b":
[(2,2,2)]}` with the identity transformer and zero offset, the anchor the
Vertex Transform Pass records is `(2,2,2)` — the first vertex of the *last*
part — while the first transformed vertex of the first non-empty part (the
spec's anchor) is `(1,1,1)`. -/
theorem c1_anchor_counterexample :
    (vertexPass (fun x y => (x, y)) 0 0 0
        ([("a", [⟨1, 1, 1⟩]), ("b", [⟨2, 2, 2⟩])] : Scene ℤ) none).map
          (fun out => out.2) = some (some ⟨2, 2, 2⟩) ∧
    specAnchor (fun x y => (x, y)) 0 0 0
        ([("a", [⟨1, 1, 1⟩]), ("b", [⟨2, 2, 2⟩])] : Scene ℤ) = some ⟨1, 1, 1⟩ ∧
    some (⟨2, 2, 2⟩ : Vertex ℤ) ≠ some ⟨1, 1, 1⟩ := by
  decide

/-- **C1, amended.** The anchor recorded by the Vertex Transform Pass is the
first transformed vertex of the *last* Mesh Part in mapping-iteration order
(line 126 runs unguarded on every part, so the last assignment wins), and
there is no fall-through past empty parts: the pass raises `IndexError`
exactly when some part is empty, so the anchor stays undefined only for a
scene with zero parts. -/
theorem c1_anchor_amended (tr : Tr R) (dx dy dz : R) (scene : Scene R) :
    (∀ out : Scene R × Option (Vertex R),
        vertexPass tr dx dy dz scene none = some out →
        out.2 = (lastPartFirstVertex scene).map (transformVertex tr dx dy dz)) ∧
    (vertexPass tr dx dy dz scene none = none ↔ ∃ p ∈ scene, p.2 = []) :=
  ⟨fun out h => by
      rw [(vertexPass_eq_some tr dx dy dz scene none out h).2, Option.or_none],
   vertexPass_eq_none_iff tr dx dy dz scene none⟩

/-- Witness for `c1_anchor_amended` at the two-part counterexample scene. -/
theorem c1_anchor_amended_witness :
    (some (⟨2, 2, 2⟩ : Vertex ℤ)
        = (lastPartFirstVertex ([("a", [⟨1, 1, 1⟩]), ("b", [⟨2, 2, 2⟩])] : Scene ℤ)).map
            (transformVertex (fun x y => (x, y)) 0 0 0)) ∧
    vertexPass (fun x y => (x, y)) 0 0 0
        ([("a", [⟨1, 1, 1⟩]), ("b", [⟨2, 2, 2⟩])] : Scene ℤ) none ≠ none :=
  ⟨(c1_anchor_amended (fun x y => (x, y)) 0 0 0 _).1
      ([("a", [⟨1, 1, 1⟩]), ("b", [⟨2, 2, 2⟩])], some ⟨2, 2, 2⟩) (by decide),
   fun hn =>
    (by decide : ¬ ∃ p ∈ ([("a", [⟨1, 1, 1⟩]), ("b", [⟨2, 2, 2⟩])] : Scene ℤ), p.2 = [])
      ((c1_anchor_amended (fun x y => (x, y)) 0 0 0 _).2.mp hn)⟩

/-- **C2, counterexample.** In the two-part scene `{"a": [(1,1,5)], "b":
[(2,2,7)]}` with the identity transformer and zero offset, the full run
succeeds but the first Mesh Part's first vertex ends at `(-1,-1,5)`, not at
`(0,0,5)` as the claim requires (its post-transform z is `5`): recentering
subtracts the *last* part's anchor. -/
theorem c2_first_vertex_counterexample :
    run (some (fun x y => (x, y))) (⟨some [0, 0, 0], none⟩ : Config ℤ)
        [("a", [⟨1, 1, 5⟩]), ("b", [⟨2, 2, 7⟩])]
      = .ok ⟨[("a", [⟨-1, -1, 5⟩]), ("b", [⟨0, 0, 7⟩])], some ⟨[2, 2, 0], []⟩⟩ ∧
    (⟨-1, -1, 5⟩ : Vertex ℤ) ≠ ⟨0, 0, 5⟩ := by
  decide

/-- **C2, amended.** After a full successful run, it is the *last* Mesh
Part's first vertex that equals `(0, 0, z)` exactly, where `z` is its value
after the Vertex Transform Pass (original z plus the configured dz): the
recentering pass zeroes the x and y of the vertex recorded as the anchor,
which is the last part's first vertex. -/
theorem c2_recentered_anchor (tr : Tr R) (cfg : Config R) (scene : Scene R)
    (dx dy dz : R) (hoff : cfg.offset.getD [0, 0, 0] = [dx, dy, dz])
    (res : RunResult R) (hrun : run (some tr) cfg scene = .ok res)
    (w : Vertex R) (hw : lastPartFirstVertex scene = some w) :
    lastPartFirstVertex res.scene = some ⟨0, 0, w.z + dz⟩ := by
  obtain ⟨hne, hcase⟩ := run_ok_inversion tr cfg scene dx dy dz hoff res hrun
  rcases hcase with ⟨hsc, hres⟩ | ⟨w2, hw2, hres⟩
  · subst hsc
    simp [lastPartFirstVertex] at hw
  · rw [hw] at hw2
    obtain rfl : w = w2 := by injection hw2
    subst hres
    simp only [lastPartFirstVertex_map]
    rw [hw]
    simp [recenterVertex, transformVertex]

/-- Witness for `c2_recentered_anchor` at the two-part counterexample
scene: the last part's first vertex ends at `(0, 0, 7)`. -/
theorem c2_recentered_anchor_witness :
    lastPartFirstVertex ([("a", [⟨-1, -1, 5⟩]), ("b", [⟨0, 0, 7⟩])] : Scene ℤ)
      = some ⟨0, 0, 7⟩ := by
  exact c2_recentered_anchor (fun x y => (x, y)) ⟨some [0, 0, 0], none⟩
    [("a", [⟨1, 1, 5⟩]), ("b", [⟨2, 2, 7⟩])] 0 0 0 (by decide)
    ⟨[("a", [⟨-1, -1, 5⟩]), ("b", [⟨0, 0, 7⟩])], some ⟨[2, 2, 0], []⟩⟩ (by decide)
    ⟨2, 2, 7⟩ (by decide)

/-- **C3.** Whenever the Vertex Transform Pass completes, the new scene is
exactly the old scene with every part's vertex list mapped 1:1, in order,
through `(x, y, z) ↦ (tr (x+dx) (y+dy)).1, (tr (x+dx) (y+dy)).2, z+dz)`:
parts keep their names and order, vertex counts and ordering are preserved,
z is offset but never reprojected. -/
theorem c3_vertex_transform (tr : Tr R) (dx dy dz : R) (scene : Scene R)
    (a0 : Option (Vertex R)) (out : Scene R × Option (Vertex R))
    (h : vertexPass tr dx dy dz scene a0 = some out) :
    out.1 = scene.map (fun p => (p.1, p.2.map (fun v =>
      ⟨(tr (v.x + dx) (v.y + dy)).1, (tr (v.x + dx) (v.y + dy)).2, v.z + dz⟩))) :=
  (vertexPass_eq_some tr dx dy dz scene a0 out h).1

/-- Witness for `c3_vertex_transform`: a doubling transformer with offset
`(10, 20, 30)` on a one-part scene. -/
theorem c3_vertex_transform_witness :
    ([("a", [⟨22, 63, 33⟩])] : Scene ℤ)
      = ([("a", [⟨1, 1, 3⟩])] : Scene ℤ).map (fun p => (p.1, p.2.map (fun v =>
          ⟨((fun x y => (2 * x, 3 * y)) (v.x + 10) (v.y + 20)).1,
           ((fun x y => (2 * x, 3 * y)) (v.x + 10) (v.y + 20)).2, v.z + 30⟩))) :=
  c3_vertex_transform (fun x y => (2 * x, 3 * y)) 10 20 30
    [("a", [⟨1, 1, 3⟩])] none ([("a", [⟨22, 63, 33⟩])], some ⟨22, 63, 33⟩) (by decide)

/-- **C4.** For every successful full run, the z coordinates of the output
scene are exactly the input z coordinates plus the configured dz, part by
part and vertex by vertex: recentering subtracts the anchor's x and y but
never touches z. -/
theorem c4_z_offset_only (tr : Tr R) (cfg : Config R) (scene : Scene R)
    (dx dy dz : R) (hoff : cfg.offset.getD [0, 0, 0] = [dx, dy, dz])
    (res : RunResult R) (hrun : run (some tr) cfg scene = .ok res) :
    res.scene.map (fun p => (p.1, p.2.map Vertex.z))
      = scene.map (fun p => (p.1, p.2.map (fun v => v.z + dz))) := by
  obtain ⟨hne, hcase⟩ := run_ok_inversion tr cfg scene dx dy dz hoff res hrun
  rcases hcase with ⟨hsc, hres⟩ | ⟨w, hw, hres⟩
  · subst hsc hres
    rfl
  · subst hres
    simp [List.map_map, Function.comp_def, recenterVertex, transformVertex]

/-- Witness for `c4_z_offset_only`: identity transformer, offset
`(0, 0, 10)`, one vertex with z = 3 ending with z = 13. -/
theorem c4_z_offset_only_witness :
    (RunResult.scene ⟨[("a", [⟨0, 0, 13⟩])], some ⟨[1, 2, 0], []⟩⟩ : Scene ℤ).map
        (fun p => (p.1, p.2.map Vertex.z))
      = ([("a", [⟨1, 2, 3⟩])] : Scene ℤ).map
          (fun p => (p.1, p.2.map (fun v => v.z + 10))) :=
  c4_z_offset_only (fun x y => (x, y)) ⟨some [0, 0, 10], none⟩
    [("a", [⟨1, 2, 3⟩])] 0 0 10 (by decide)
    ⟨[("a", [⟨0, 0, 13⟩])], some ⟨[1, 2, 0], []⟩⟩ (by decide)

/-- **C5.** An Image Point whose `point` has exactly 3 components is emitted
as `{filename, point: [px', py', pz]}` with `(px', py') = transform(px, py)`
applied to the *raw* components — the configured offset (arbitrary in `cfg`)
is never added before projection — and the image list a successful run puts
in the metadata is exactly the input list mapped through this
offset-free, anchor-free `transformImage`. -/
theorem c5_image_no_offset (tr : Tr R) (cfg : Config R) (scene : Scene R)
    (f : Option String) (px py pz : R) :
    transformImage tr ⟨f, some [px, py, pz]⟩
        = ⟨f, some [(tr px py).1, (tr px py).2, pz]⟩ ∧
    (∀ (res : RunResult R) (m : Metadata R),
      run (some tr) cfg scene = .ok res → res.metadata = some m →
      m.images = (cfg.images.getD []).map (transformImage tr)) :=
  ⟨rfl, fun res m hrun hm => run_metadata_images tr cfg scene res m hrun hm⟩

/-- Witness for `c5_image_no_offset`: offset `(100, 0, 0)` configured, image
point `[10, 20, 5]`, doubling transformer — the output point is
`(transform 10 20, 5) = (20, 60, 5)`, not `transform 110 20`. -/
theorem c5_image_no_offset_witness :
    transformImage (fun x y => (2 * x, 3 * y))
        (⟨some "a.jpg", some [10, 20, 5]⟩ : ImagePoint ℤ)
        = ⟨some "a.jpg", some [20, 60, 5]⟩ ∧
    Metadata.images ⟨[202, 3, 0], [⟨some "a.jpg", some [20, 60, 5]⟩]⟩
        = ([⟨some "a.jpg", some [10, 20, 5]⟩] : List (ImagePoint ℤ)).map
            (transformImage (fun x y => (2 * x, 3 * y))) := by
  have T := c5_image_no_offset (fun x y => (2 * x, 3 * y))
    (⟨some [100, 0, 0], some [⟨some "a.jpg", some [10, 20, 5]⟩]⟩ : Config ℤ)
    [("a", [⟨1, 1, 5⟩])] (some "a.jpg") 10 20 5
  exact ⟨T.1, T.2 ⟨[("a", [⟨0, 0, 5⟩])], some ⟨[202, 3, 0], [⟨some "a.jpg", some [20, 60, 5]⟩]⟩⟩
    ⟨[202, 3, 0], [⟨some "a.jpg", some [20, 60, 5]⟩]⟩ (by decide) rfl⟩

/-- **C6.** An Image Point whose `point` is absent or not exactly 3
components is emitted unchanged at its input position in the metadata image
list of any successful run — malformed image points are passed through, not
rejected, and cause no error. -/
theorem c6_malformed_passthrough (tr : Tr R) (cfg : Config R) (scene : Scene R)
    (res : RunResult R) (m : Metadata R) (i : ℕ) (img : ImagePoint R)
    (hrun : run (some tr) cfg scene = .ok res) (hm : res.metadata = some m)
    (hi : (cfg.images.getD [])[i]? = some img)
    (hmal : ∀ l, img.point = some l → l.length ≠ 3) :
    m.images[i]? = some img := by
  rw [run_metadata_images tr cfg scene res m hrun hm, List.getElem?_map, hi,
    Option.map_some', transformImage_malformed tr img hmal]

/-- Witness for `c6_malformed_passthrough`: the length-2 point
`{"filename": "b.jpg", "point": [1, 2]}` appears unchanged at position 0. -/
theorem c6_malformed_passthrough_witness :
    ((⟨[1, 1, 0], [⟨some "b.jpg", some [1, 2]⟩]⟩ : Metadata ℤ).images)[0]?
      = some ⟨some "b.jpg", some [1, 2]⟩ :=
  c6_malformed_passthrough (fun x y => (x, y))
    ⟨some [0, 0, 0], some [⟨some "b.jpg", some [1, 2]⟩]⟩ [("a", [⟨1, 1, 1⟩])]
    ⟨[("a", [⟨0, 0, 1⟩])], some ⟨[1, 1, 0], [⟨some "b.jpg", some [1, 2]⟩]⟩⟩
    ⟨[1, 1, 0], [⟨some "b.jpg", some [1, 2]⟩]⟩ 0 ⟨some "b.jpg", some [1, 2]⟩
    (by decide) rfl rfl
    (fun l hl => by injection hl with h; subst h; decide)

/-- **C7, counterexample.** A scene whose only Mesh Part is empty (so the
anchor is undefined) does not complete without an error as the claim
requires: the run raises `IndexError` at `new_vertices[0]`. -/
theorem c7_empty_scene_counterexample :
    run (some (fun x y => (x, y))) (⟨some [0, 0, 0], none⟩ : Config ℤ)
        [("a", [])] = .error .indexError := by
  decide

/-- **C7, amended.** Only a scene with *zero* Mesh Parts yields no metadata
record without an error (the run succeeds and produces no record — not an
empty or zero-filled one); a scene all of whose parts are empty but that has
at least one part raises `IndexError` instead. Whenever a run completes and
produces a record, the record is
`{offset: [anchor.x, anchor.y, 0], images: <transformed image list>}` where
the anchor is the transformed first vertex of the last part. -/
theorem c7_metadata_amended (tr : Tr R) (cfg : Config R) (dx dy dz : R)
    (hoff : cfg.offset.getD [0, 0, 0] = [dx, dy, dz]) :
    run (some tr) cfg ([] : Scene R) = .ok ⟨[], none⟩ ∧
    (∀ scene : Scene R, (∃ p ∈ scene, p.2 = []) →
      run (some tr) cfg scene = .error .indexError) ∧
    (∀ (scene : Scene R) (res : RunResult R) (m : Metadata R),
      run (some tr) cfg scene = .ok res → res.metadata = some m →
      ∃ w, lastPartFirstVertex scene = some w ∧
        m = ⟨[(transformVertex tr dx dy dz w).x,
              (transformVertex tr dx dy dz w).y, 0],
             (cfg.images.getD []).map (transformImage tr)⟩) := by
  refine ⟨run_empty tr cfg dx dy dz hoff, fun scene hex => ?_, fun scene res m hrun hm => ?_⟩
  · have hn := (vertexPass_eq_none_iff tr dx dy dz scene none).2 hex
    simp only [run, hoff, hn]
  · obtain ⟨hne, hcase⟩ := run_ok_inversion tr cfg scene dx dy dz hoff res hrun
    rcases hcase with ⟨hsc, hres⟩ | ⟨w, hw, hres⟩
    · rw [hres] at hm
      exact absurd hm (by simp)
    · rw [hres] at hm
      simp only [Option.some_inj] at hm
      exact ⟨w, hw, hm.symm⟩

/-- Witness for `c7_metadata_amended`: zero parts succeed with no record;
an all-empty one-part scene errors; a completed one-part run yields
`{offset: [1, 1, 0], images: []}`. -/
theorem c7_metadata_amended_witness :
    run (some (fun x y => (x, y))) (⟨some [0, 0, 0], none⟩ : Config ℤ)
        ([] : Scene ℤ) = .ok ⟨[], none⟩ ∧
    run (some (fun x y => (x, y))) (⟨some [0, 0, 0], none⟩ : Config ℤ)
        [("a", []), ("b", [⟨1, 1, 1⟩])] = .error .indexError ∧
    ∃ w, lastPartFirstVertex ([("a", [⟨1, 1, 1⟩])] : Scene ℤ) = some w ∧
      (⟨[1, 1, 0], []⟩ : Metadata ℤ)
        = ⟨[(transformVertex (fun x y => (x, y)) 0 0 0 w).x,
            (transformVertex (fun x y => (x, y)) 0 0 0 w).y, 0],
           (Option.getD (none : Option (List (ImagePoint ℤ))) []).map
             (transformImage (fun x y => (x, y)))⟩ := by
  have T := c7_metadata_amended (fun x y => (x, y))
    (⟨some [0, 0, 0], none⟩ : Config ℤ) 0 0 0 (by decide)
  exact ⟨T.1,
    T.2.1 [("a", []), ("b", [⟨1, 1, 1⟩])] (by decide),
    T.2.2 [("a", [⟨1, 1, 1⟩])]
      ⟨[("a", [⟨0, 0, 1⟩])], some ⟨[1, 1, 0], []⟩⟩ ⟨[1, 1, 0], []⟩ (by decide) rfl⟩

/-- **C8.** The run fails with the offset-validation error exactly when the
supplied offset (defaulted to `[0,0,0]` when absent) does not have exactly 3
components — for every transformer-construction outcome and every scene, so
the check precedes CRS construction and mesh traversal — and a config with
no offset behaves identically to one with offset `[0,0,0]`. -/
theorem c8_offset_validation (trRes : Option (Tr R)) (cfg : Config R)
    (scene : Scene R) :
    (run trRes cfg scene = .error .invalidOffset
        ↔ (cfg.offset.getD [0, 0, 0]).length ≠ 3) ∧
    (∀ imgs : Option (List (ImagePoint R)),
      run trRes (⟨none, imgs⟩ : Config R) scene
        = run trRes (⟨some [0, 0, 0], imgs⟩ : Config R) scene) := by
  refine ⟨?_, fun imgs => rfl⟩
  rcases hl : cfg.offset.getD [0, 0, 0] with _ | ⟨a, _ | ⟨b, _ | ⟨c, _ | ⟨d, t⟩⟩⟩⟩
  · refine iff_of_true ?_ (by simp)
    unfold run
    rw [hl]
  · refine iff_of_true ?_ (by simp)
    unfold run
    rw [hl]
  · refine iff_of_true ?_ (by simp)
    unfold run
    rw [hl]
  · exact iff_of_false (run_ne_invalidOffset trRes cfg scene a b c hl) (by simp)
  · refine iff_of_true ?_ (by simp)
    unfold run
    rw [hl]

/-- Witness for `c8_offset_validation`: a 2-component offset is rejected
(with an unrecognized CRS pair present, showing the offset check fires
first), and an absent offset defaults instead of erroring. -/
theorem c8_offset_validation_witness :
    run (none : Option (Tr ℤ)) (⟨some [1, 2], none⟩ : Config ℤ)
        [("a", [⟨1, 1, 1⟩])] = .error .invalidOffset ∧
    run (none : Option (Tr ℤ)) (⟨none, none⟩ : Config ℤ) [("a", [⟨1, 1, 1⟩])]
      = run (none : Option (Tr ℤ)) (⟨some [0, 0, 0], none⟩ : Config ℤ)
          [("a", [⟨1, 1, 1⟩])] :=
  ⟨(c8_offset_validation (none : Option (Tr ℤ)) ⟨some [1, 2], none⟩
      [("a", [⟨1, 1, 1⟩])]).1.mpr (by decide),
   (c8_offset_validation (none : Option (Tr ℤ)) (⟨none, none⟩ : Config ℤ)
      [("a", [⟨1, 1, 1⟩])]).2 none⟩

/-- **C9.** When the CRS transformer construction fails (either identifier
unrecognized, modelled as `none`), the run fails with the CRS error for
every scene and every valid offset — no vertex or image point is ever
transformed, since no `RunResult` is produced — and a run holding a
successfully constructed transformer never fails with that error, so the
failure can only arise at construction time. -/
theorem c9_crs_construction_failure (cfg : Config R) (scene : Scene R)
    (dx dy dz : R) (hoff : cfg.offset.getD [0, 0, 0] = [dx, dy, dz]) :
    run (none : Option (Tr R)) cfg scene = .error .invalidCRS ∧
    ∀ tr : Tr R, run (some tr) cfg scene ≠ .error .invalidCRS := by
  constructor
  · unfold run
    rw [hoff]
  · intro tr
    unfold run
    rw [hoff]
    cases hvp : vertexPass tr dx dy dz scene none with
    | none => simp only [hvp]; simp
    | some out =>
      obtain ⟨scene1, fv⟩ := out
      cases hrp : recenterPass fv scene1 with
      | none => simp only [hvp, hrp]; simp
      | some scene2 => simp only [hvp, hrp]; simp

/-- Witness for `c9_crs_construction_failure` on a concrete scene with the
zero offset. -/
theorem c9_crs_construction_failure_witness :
    run (none : Option (Tr ℤ)) (⟨some [0, 0, 0], none⟩ : Config ℤ)
        [("a", [⟨1, 1, 1⟩])] = .error .invalidCRS ∧
    run (some (fun x y => (x, y))) (⟨some [0, 0, 0], none⟩ : Config ℤ)
        [("a", [⟨1, 1, 1⟩])] ≠ .error .invalidCRS :=
  ⟨(c9_crs_construction_failure (⟨some [0, 0, 0], none⟩ : Config ℤ)
      [("a", [⟨1, 1, 1⟩])] 0 0 0 (by decide)).1,
   (c9_crs_construction_failure (⟨some [0, 0, 0], none⟩ : Config ℤ)
      [("a", [⟨1, 1, 1⟩])] 0 0 0 (by decide)).2 (fun x y => (x, y))⟩

/-- **C10.** An Image Point with a 3-component `point` but no `filename`
is still emitted as a transformed record whose filename is null
(`img.get("filename")` returns `None`, which is stored as-is); the image
loop never validates filename presence, drops no record, and raises no
error (it is total, and output length always equals input length). -/
theorem c10_missing_filename (tr : Tr R) (px py pz : R)
    (imgs : List (ImagePoint R)) :
    transformImage tr ⟨none, some [px, py, pz]⟩
        = ⟨none, some [(tr px py).1, (tr px py).2, pz]⟩ ∧
    (imgs.map (transformImage tr)).length = imgs.length :=
  ⟨rfl, by simp⟩

end MeshTranslate
